import Mathlib

/-!
# Verification of the agent repository's core components

Shallow embedding of the data model and the operations of the repository:
the LLM provider abstraction (`agent/llm/provider.go`), the fallback
provider composition (`FallbackProvider.Complete`), the tool registry
(`agent/tools/registry.go`), and the orchestration loop
(`handleToolCallsWithDepthLimitStreaming` and friends in `agent/agent.go`).

Modelling conventions:
- Go strings are Lean `String`s; byte lengths (`len(s)` in Go) are modelled by
  an explicit UTF-8 byte count; `strings.Contains` / `HasSuffix` /
  `TrimSpace` / `ToLower` are modelled by executable helpers over `List Char`
  (ASCII case folding and ASCII whitespace, which covers every string the
  embedded code manipulates).
- `Complete` on a provider is a pure request → response mapping
  (an `Except`-valued function), as the specification's data-model section
  states; tool execution is likewise an `Except`-valued oracle.
- Wall-clock values (execution ids, timestamps, durations) are passed in as
  parameters, making the embedded functions deterministic.
- Ghost observations (the ordered list of tool calls actually executed by the
  loop, the ordered list of provider names whose `Complete` was attempted,
  whether a tool's underlying `Execute` ran) are returned alongside the
  source-level results so that "X was never invoked" properties are statable.
-/

namespace Agent

/-! ## Executable string helpers mirroring Go's `strings` package -/

/-- Bool-valued list prefix test (structural, kernel-evaluable). -/
def listIsPrefixOf : List Char → List Char → Bool
  | [], _ => true
  | _ :: _, [] => false
  | a :: as, b :: bs => a = b && listIsPrefixOf as bs

/-- Bool-valued list infix test: models Go `strings.Contains` on rune lists. -/
def listIsInfixOf (pat : List Char) : List Char → Bool
  | [] => listIsPrefixOf pat []
  | b :: bs => listIsPrefixOf pat (b :: bs) || listIsInfixOf pat bs

/-- Go `strings.Contains(s, pat)`. -/
def goContains (s pat : String) : Bool :=
  listIsInfixOf pat.toList s.toList

/-- Go `strings.HasSuffix(s, pat)`. -/
def goHasSuffix (s pat : String) : Bool :=
  listIsPrefixOf pat.toList.reverse s.toList.reverse

/-- UTF-8 byte count of one character (Go `len` counts bytes). -/
def charUtf8Size (c : Char) : Nat :=
  if c.toNat < 128 then 1
  else if c.toNat < 2048 then 2
  else if c.toNat < 65536 then 3
  else 4

/-- Go `len(s)`: the UTF-8 byte length of a string. -/
def goLen (s : String) : Nat :=
  (s.toList.map charUtf8Size).sum

/-- ASCII whitespace, the cases `strings.TrimSpace` strips in the embedded
strings. -/
def isSpaceChar (c : Char) : Bool :=
  c = ' ' || c = '\t' || c = '\n' || c = '\r'

/-- Go `strings.TrimSpace`. -/
def goTrimSpace (s : String) : String :=
  ⟨((s.toList.dropWhile isSpaceChar).reverse.dropWhile isSpaceChar).reverse⟩

/-- ASCII case folding for one character. -/
def lowerChar (c : Char) : Char :=
  if 65 ≤ c.toNat ∧ c.toNat ≤ 90 then Char.ofNat (c.toNat + 32) else c

/-- Go `strings.ToLower` (ASCII). -/
def goToLower (s : String) : String :=
  ⟨s.toList.map lowerChar⟩

/-! ## Data model from `agent/llm/provider.go` -/

/-- `FunctionCall`: details of a function call requested by the LLM. -/
structure FunctionCall where
  name : String
  arguments : String
deriving DecidableEq

/-- `ToolCall`: a function call requested by the LLM. -/
structure ToolCall where
  id : String
  type : String
  function : FunctionCall
deriving DecidableEq

/-- `Message`: one conversation message. -/
structure Message where
  role : String
  content : String
  toolCalls : List ToolCall := []
  toolCallID : String := ""
deriving DecidableEq

/-- `TokenUsage`. -/
structure TokenUsage where
  promptTokens : Nat := 0
  completionTokens : Nat := 0
  totalTokens : Nat := 0
deriving DecidableEq

/-- `FunctionTool`: a tool declaration sent to the LLM.  The JSON-schema
parameter payload is carried opaquely as a string. -/
structure FunctionTool where
  type : String
  name : String
  description : String := ""
  parametersJSON : String := ""
deriving DecidableEq

/-- `CompletionRequest`.  Go's `float64` temperature is threaded opaquely and
never computed on, so it is modelled by an integer payload. -/
structure CompletionRequest where
  messages : List Message
  model : String := ""
  maxTokens : Int := 0
  temperature : Int := 0
  stream : Bool := false
  tools : List FunctionTool := []
  toolChoice : String := ""
deriving DecidableEq

/-- `CompletionResponse`.  `ResponseTime` is dropped (wall clock). -/
structure CompletionResponse where
  content : String
  model : String := ""
  usage : TokenUsage := {}
  toolCalls : List ToolCall := []
deriving DecidableEq

/-- `ProviderError`: provider, error type, message, and an optional wrapped
underlying error (Go's `Err error` field, which in this codebase always holds
another `ProviderError` or nothing). -/
inductive PError where
  | mk (provider : String) (errType : String) (message : String)
       (err : Option PError)

/-- The `Provider` field of a `ProviderError`. -/
def PError.provider : PError → String
  | .mk p _ _ _ => p

/-- The `Type` field of a `ProviderError`. -/
def PError.errType : PError → String
  | .mk _ t _ _ => t

/-- The `Message` field of a `ProviderError`. -/
def PError.message : PError → String
  | .mk _ _ m _ => m

/-- The `Err` field of a `ProviderError`. -/
def PError.err : PError → Option PError
  | .mk _ _ _ e => e

/-- `ProviderError.Error()`: the rendered error text. -/
def PError.render : PError → String
  | .mk provider errType message err =>
    match err with
    | some e => provider ++ " " ++ errType ++ ": " ++ message ++ " (" ++ e.render ++ ")"
    | none => provider ++ " " ++ errType ++ ": " ++ message

/-- `ErrorTypeAuth`. -/
def errorTypeAuth : String := "auth_error"
/-- `ErrorTypeRateLimit`. -/
def errorTypeRateLimit : String := "rate_limit"
/-- `ErrorTypeQuotaExceed`. -/
def errorTypeQuotaExceed : String := "quota_exceeded"
/-- `ErrorTypeNetwork`. -/
def errorTypeNetwork : String := "network_error"
/-- `ErrorTypeInvalidReq`. -/
def errorTypeInvalidReq : String := "invalid_request"
/-- `ErrorTypeServerError`. -/
def errorTypeServerError : String := "server_error"

/-- A concrete provider as consumed by `FallbackProvider`: its name, the
(ctx-independent) result of `IsAvailable`, and its pure `Complete` mapping. -/
structure ProviderImpl where
  name : String
  available : Bool
  complete : CompletionRequest → Except PError CompletionResponse

/-! ## `FallbackProvider` (the fallback composition file, package `llm`) -/

/-- `FallbackProvider.GetName()`: `fmt.Sprintf("fallback[%v]", names)` where
`names` is the `[]string` of provider names — Go's `%v` renders a string slice
as the names separated by single spaces inside one pair of brackets. -/
def fallbackName (providers : List ProviderImpl) : String :=
  if providers.isEmpty then "fallback-empty"
  else "fallback[[" ++ String.intercalate " " (providers.map (·.name)) ++ "]]"

/-- The body of `FallbackProvider.Complete`: iterate the providers in order,
threading `lastError`.  The second component of the result is a ghost trace of
the names of the providers whose `Complete` was actually invoked, in order.
`fname` is the composite provider's `GetName()` (computed over the full list
before the iteration starts). -/
def completeAux (fname : String) (req : CompletionRequest) :
    List ProviderImpl → Option PError →
    Except PError CompletionResponse × List String
  | [], some e =>
    (.error (.mk fname errorTypeServerError "all providers failed" (some e)), [])
  | [], none =>
    (.error (.mk fname errorTypeServerError "no providers configured" none), [])
  | p :: rest, _lastError =>
    if ¬ p.available then
      -- skip: record a "provider not available" error and continue
      completeAux fname req rest
        (some (.mk p.name errorTypeNetwork "provider not available" none))
    else
      match p.complete req with
      | .ok resp =>
        -- success: annotate the model with the serving provider's name
        (.ok { resp with model := resp.model ++ " (" ++ p.name ++ ")" }, [p.name])
      | .error e =>
        if e.errType = errorTypeAuth ∨ e.errType = errorTypeQuotaExceed ∨
            e.errType = errorTypeRateLimit then
          -- auth/quota/rate-limit: always try the next provider
          let r := completeAux fname req rest (some e)
          (r.1, p.name :: r.2)
        else if ¬ rest.isEmpty then
          -- other error types: try the next provider only if this one is not
          -- last (Go: `i < len(f.providers)-1`)
          let r := completeAux fname req rest (some e)
          (r.1, p.name :: r.2)
        else
          (.error e, [p.name])

/-- `FallbackProvider.Complete` with its ghost attempted-provider trace. -/
def FallbackProviderComplete (providers : List ProviderImpl)
    (req : CompletionRequest) : Except PError CompletionResponse × List String :=
  completeAux (fallbackName providers) req providers none

/-! ## Tool registry (`agent/tools/registry.go`, types from the tools package) -/

/-- A metadata value (`map[string]interface{}` payloads used by the registry:
booleans and integer costs). -/
inductive MetaValue where
  | bool (b : Bool)
  | int (n : Int)
deriving DecidableEq

/-- Tool parameters (`map[string]interface{}`): the registry only threads them
through, so the JSON values are abstracted to strings. -/
abbrev ToolParams := List (String × String)

/-- `ToolResult` from the tools package.  `Data` is abstracted to the optional
string content the agent extracts from it; execution id / timestamp / duration
are modelled as plain values supplied by the caller. -/
structure ToolResult where
  success : Bool
  dataContent : Option String := none
  error : String := ""
  message : String := ""
  metadata : List (String × MetaValue) := []
  executionID : String := ""
  timestamp : Nat := 0
  duration : Nat := 0
deriving DecidableEq

/-- `ToolExecution`: a tool execution request. -/
structure ToolExecution where
  toolName : String
  parameters : ToolParams
  confirmed : Bool
  timestamp : Nat := 0

/-- A registered tool: name, `IsAvailable`, `RequiresConfirmation`,
`GetEstimatedCost`, the optional duck-typed `ValidateParameters` capability
(`some v` when the tool implements it; `v params = some msg` is a validation
failure with message `msg`), and the `Execute` oracle. -/
structure ToolImpl where
  name : String
  available : Bool
  requiresConfirmation : Bool
  estimatedCost : Int
  validate : Option (ToolParams → Option String) := none
  execute : ToolParams → Except String ToolResult

/-- `ToolRegistry.ExecuteTool`.  The registry's tool map is modelled as a list
with unique names (`RegisterTool` rejects duplicates); `execId`, `now` and
`dur` stand for `generateExecutionID()`, `time.Now()` and the measured
duration.  The second component of a successful result is a ghost flag:
`true` iff the underlying tool's `Execute` was invoked. -/
def executeToolRegistry (registry : List ToolImpl) (execution : ToolExecution)
    (execId : String) (now : Nat) (dur : Nat) :
    Except String (ToolResult × Bool) :=
  match registry.find? (fun t => t.name = execution.toolName) with
  | none => .error ("tool '" ++ execution.toolName ++ "' not found")
  | some tool =>
    if ¬ tool.available then
      .ok ({ success := false,
             error := "tool is not available",
             message := "Tool '" ++ execution.toolName ++ "' is currently unavailable",
             executionID := execId, timestamp := now }, false)
    else if tool.requiresConfirmation ∧ ¬ execution.confirmed then
      .ok ({ success := false,
             error := "confirmation required",
             message := "Tool '" ++ execution.toolName ++ "' requires user confirmation before execution",
             executionID := execId, timestamp := now,
             metadata := [("requires_confirmation", .bool true),
                          ("estimated_cost", .int tool.estimatedCost)] }, false)
    else
      match tool.validate with
      | some v =>
        match v execution.parameters with
        | some errMsg =>
          .ok ({ success := false,
                 error := errMsg,
                 message := "Parameter validation failed for tool '" ++ execution.toolName ++ "'",
                 executionID := execId, timestamp := now }, false)
        | none =>
          match tool.execute execution.parameters with
          | .error err =>
            .ok ({ success := false, error := err,
                   message := "Tool '" ++ execution.toolName ++ "' execution failed",
                   executionID := execId, timestamp := now, duration := dur }, true)
          | .ok result => .ok ({ result with duration := dur }, true)
      | none =>
        match tool.execute execution.parameters with
        | .error err =>
          .ok ({ success := false, error := err,
                 message := "Tool '" ++ execution.toolName ++ "' execution failed",
                 executionID := execId, timestamp := now, duration := dur }, true)
        | .ok result => .ok ({ result with duration := dur }, true)

/-- `V3Agent.executeToolCall` (`agent/agent.go`): parse the JSON argument
string (the parser is an oracle parameter), execute through the registry with
`Confirmed: true`, and post-process the result.  The ghost flag is carried
through from the registry. -/
def executeToolCall (registry : List ToolImpl)
    (parseArgs : String → Option ToolParams)
    (execId : String) (now : Nat) (dur : Nat)
    (toolCall : ToolCall) : Except String String × Bool :=
  match parseArgs toolCall.function.arguments with
  | none => (.error "failed to parse arguments", false)
  | some args =>
    let execution : ToolExecution :=
      { toolName := toolCall.function.name, parameters := args,
        confirmed := true,  -- Auto-confirm for LLM-requested tools
        timestamp := now }
    match executeToolRegistry registry execution execId now dur with
    | .error err => (.error err, false)
    | .ok (result, executed) =>
      if ¬ result.success then
        (.error ("tool execution failed: " ++ result.error), executed)
      else if toolCall.function.name = "file_read" ∧ result.dataContent.isSome then
        match result.dataContent with
        | some contentStr => (.ok contentStr, executed)
        | none => (.ok result.message, executed)
      else (.ok result.message, executed)

/-! ## The orchestration loop
(`V3Agent.handleToolCallsWithDepthLimitStreaming`, `agent/agent.go`) -/

/-- `ConversationOptions` (the fields the loop threads into requests). -/
structure ConversationOptions where
  maxTokens : Int := 0
  temperature : Int := 0

/-- `maxDepth := 20` (local constant of the loop). -/
def maxDepth : Nat := 20

/-- `minSearches := 8` (local constant of the loop). -/
def minSearches : Nat := 8

/-- `V3Agent.countSearchAttempts`: count the tool calls named `kbase` inside
assistant messages. -/
def countSearchAttempts : List Message → Nat
  | [] => 0
  | msg :: rest =>
    (if msg.role = "assistant" then
      (msg.toolCalls.filter fun toolCall => toolCall.function.name = "kbase").length
    else 0) + countSearchAttempts rest

/-- The synthesized depth-exhaustion content (loop step 1). -/
def exhaustiveSearchMessage (searchCount : Nat) : String :=
  "After exhaustive search (" ++ toString searchCount ++
  " attempts), I could not find the specific information you requested in the available documentation. This may indicate:\n\n1. The information might be in a different location or format\n2. The documentation might be incomplete for this specific query\n3. The feature might not be documented yet\n\nPlease:\n- Try rephrasing your question with different keywords\n- Specify the exact API operation you need\n- Check if there are additional documentation sources\n\nSearch attempts made: " ++
  toString searchCount

/-- Forced termination at `depth ≥ maxDepth`: replace the content when it is
empty, ends (trimmed) with a colon, or is under 100 bytes trimmed. -/
def forceTerminateResponse (resp : CompletionResponse) (searchCount : Nat) :
    CompletionResponse :=
  if resp.content = "" ∨ goHasSuffix (goTrimSpace resp.content) ":" = true ∨
      goLen (goTrimSpace resp.content) < 100 then
    { resp with content := exhaustiveSearchMessage searchCount }
  else resp

/-- The assistant message carrying the tool calls (content defaulted when
empty). -/
def assistantMessage (resp : CompletionResponse) : Message :=
  { role := "assistant",
    content :=
      if resp.content = "" then "I'll use some tools to help answer your question."
      else resp.content,
    toolCalls := resp.toolCalls }

/-- The `tool` message content for one executed tool call: the execution error
rendered, or the result, or the no-output placeholder. -/
def toolCallContent (execTool : ToolCall → Except String String)
    (toolCall : ToolCall) : String :=
  match execTool toolCall with
  | .error err => "Error executing " ++ toolCall.function.name ++ ": " ++ err
  | .ok result =>
    if result = "" then "Tool executed successfully with no output." else result

/-- One `tool` message per executed tool call, in call order. -/
def toolMessages (execTool : ToolCall → Except String String)
    (toolCalls : List ToolCall) : List Message :=
  toolCalls.map fun toolCall =>
    { role := "tool", content := toolCallContent execTool toolCall,
      toolCallID := toolCall.id }

/-- The accumulated message list after steps 2–3 of one loop invocation:
the assistant message with the tool calls, then the tool results. -/
def messagesAfterTools (execTool : ToolCall → Except String String)
    (resp : CompletionResponse) (messages : List Message) : List Message :=
  messages ++ [assistantMessage resp] ++ toolMessages execTool resp.toolCalls

/-- The "useful information" substrings the loop greps lowered tool output
for. -/
def usefulSubstrings : List String :=
  ["endpoint", "/api/", "get ", "post ", "put ", "delete ", "http", "model/"]

/-- Whether one tool message's content counts as useful (any of the endpoint
or API shaped substrings, on the lowercased content). -/
def isUsefulToolContent (content : String) : Bool :=
  usefulSubstrings.any fun pat => goContains (goToLower content) pat

/-- The tool messages among the last 4 accumulated messages with content over
200 bytes that look useful (the loop's `recentToolResults` scan). -/
def recentUsefulMessages (messages : List Message) : List Message :=
  (messages.reverse.take 4).filter fun m =>
    m.role = "tool" && decide (200 < goLen m.content) && isUsefulToolContent m.content

/-- The accumulated byte size of `recentToolContent` (each useful content plus
the one-byte separator the loop appends). -/
def recentToolContentSize (messages : List Message) : Nat :=
  ((recentUsefulMessages messages).map fun m => goLen m.content + 1).sum

/-- The loop forces more searching when no recent useful tool result exists or
the combined useful content is under 500 bytes. -/
def shouldForceSearch (messages : List Message) : Bool :=
  (recentUsefulMessages messages).length = 0 || recentToolContentSize messages < 500

/-- The instruction glued onto a trailing assistant message at the
second-to-last allowed depth. -/
def maxDepthInstruction : String :=
  "\n\nIMPORTANT: You've reached the maximum search depth. Provide a complete final answer based on the information you've already gathered. Do not promise further searches."

/-- At `depth ≥ maxDepth-1` the loop appends the final-answer instruction to
the content of the last message — only when that message is an assistant
message (Go mutates `messages[len-1]` in place through the shared backing
array, so the request built from the same slice sees the change). -/
def addMaxDepthInstruction : List Message → List Message
  | [] => []
  | [last] =>
    if last.role = "assistant" then
      [{ last with content := last.content ++ maxDepthInstruction }]
    else [last]
  | m :: rest => m :: addMaxDepthInstruction rest

/-- The system message injected to force materially different search terms. -/
def forceSearchMessage (searchCount : Nat) : Message :=
  { role := "system",
    content :=
      "🚨 SEARCH REQUIREMENT 🚨\nYou have made " ++ toString searchCount ++ "/" ++
      toString minSearches ++
      " searches. Continue searching until you find useful information or reach " ++
      toString minSearches ++
      " total searches.\n\nINTELLIGENT SEARCH STRATEGIES:\n- Try business domain alternatives (bonus→voucher, reservation→booking)\n- Use singular/plural variations\n- Combine with API terms (endpoint, list, get, create)\n- Think conceptually: what business function does the user want?\n- Try abbreviated forms and technical variations\n\nIf you found useful information in recent searches, you may provide an answer. Otherwise, use the kbase tool with COMPLETELY DIFFERENT search terms." }

/-- The force-search system message is appended only when the last accumulated
message is a tool message. -/
def addForceSearchMessage (searchCount : Nat) : List Message → List Message
  | [] => []
  | [last] =>
    if last.role = "tool" then [last, forceSearchMessage searchCount]
    else [last]
  | m :: rest => m :: addForceSearchMessage searchCount rest

/-- The outcome of steps 4–5 of one loop invocation: the completion request
handed to the provider and the accumulated message list as the loop variable
holds it afterwards (they share the message list, as the Go slices do). -/
structure NextStep where
  request : CompletionRequest
  messages : List Message

/-- Steps 4–5: recompute `searchCount`, then pick the tools / tool-choice /
message adjustments for the next completion, mirroring the three branches of
the source (`depth ≥ maxDepth-1`, `searchCount < minSearches`, otherwise). -/
def buildFinalStep (tools : List FunctionTool) (opts : ConversationOptions)
    (messages : List Message) (depth : Nat) : NextStep :=
  let searchCount := countSearchAttempts messages
  if maxDepth - 1 ≤ depth then
    let messages := addMaxDepthInstruction messages
    { request := { messages := messages, maxTokens := opts.maxTokens,
                   temperature := opts.temperature, tools := [], toolChoice := "" },
      messages := messages }
  else if searchCount < minSearches then
    if shouldForceSearch messages then
      let messages := addForceSearchMessage searchCount messages
      { request := { messages := messages, maxTokens := opts.maxTokens,
                     temperature := opts.temperature, tools := tools,
                     toolChoice := "auto" },
        messages := messages }
    else
      { request := { messages := messages, maxTokens := opts.maxTokens,
                     temperature := opts.temperature, tools := tools,
                     toolChoice := "auto" },
        messages := messages }
  else
    { request := { messages := messages, maxTokens := opts.maxTokens,
                   temperature := opts.temperature, tools := tools,
                   toolChoice := "auto" },
      messages := messages }

/-- The synthesized retry tool call on provider failure (step 7). -/
def retryToolCall (depth : Nat) : ToolCall :=
  { id := "retry_search_" ++ toString depth, type := "function",
    function := { name := "kbase",
                  arguments := "\x7b\"query\": \"alternative search terms\"\x7d" } }

/-- The synthesized retry response on provider failure with remaining budget. -/
def retryResponse (searchCount : Nat) (depth : Nat) : CompletionResponse :=
  { content := "Continuing search... (" ++ toString searchCount ++ "/" ++
               toString minSearches ++ " attempts made)",
    toolCalls := [retryToolCall depth], usage := {} }

/-- Whether any accumulated tool message has non-empty content (decides which
apologetic fallback the loop returns when the provider fails without budget). -/
def hasToolResults (messages : List Message) : Bool :=
  messages.any fun m => m.role = "tool" && m.content ≠ ""

/-- The bounded apologetic fallback when the provider fails and no retry
budget remains. -/
def fallbackResponse (searchCount : Nat) (messages : List Message) :
    CompletionResponse :=
  { content :=
      if hasToolResults messages then
        "After " ++ toString searchCount ++
        " searches, I found some information but am having trouble presenting it properly. Could you please rephrase your question?"
      else
        "After " ++ toString searchCount ++
        " search attempts, I'm experiencing technical difficulties. Please try rephrasing your question.",
    usage := {} }

/-- `handleToolCallsWithDepthLimitStreaming`.  `provider` is the active LLM
provider's pure `Complete`; `execTool` is `executeToolCall` specialised to the
agent's registry; `fuel` bounds the number of recursive invocations (`none`
is returned only on fuel exhaustion; the Go recursion is bounded by the same
`depth < maxDepth-1` guard, so fuel `maxDepth` always suffices — see the
termination theorem).  The second result component is the ghost list of every
tool call the loop executed, in execution order. -/
def handleToolCallsWithDepthLimitStreaming
    (provider : CompletionRequest → Except PError CompletionResponse)
    (execTool : ToolCall → Except String String)
    (tools : List FunctionTool) (opts : ConversationOptions) :
    Nat → CompletionResponse → List Message → Nat →
    Option (CompletionResponse × List ToolCall)
  | fuel, initialResp, messages, depth =>
    if maxDepth ≤ depth then
      -- step 1: force termination, no tool call executed
      some (forceTerminateResponse initialResp (countSearchAttempts messages), [])
    else
      -- steps 2–6: build the next request (the `step` below names the
      -- combined outcome of appending the assistant and tool messages and of
      -- the tools / tool-choice / instruction branch) and call the provider
      match provider (buildFinalStep tools opts
          (messagesAfterTools execTool initialResp messages) depth).request with
      | .error _ =>
        -- step 7: the error value itself is never inspected
        if countSearchAttempts (buildFinalStep tools opts
              (messagesAfterTools execTool initialResp messages) depth).messages <
              minSearches ∧ depth < maxDepth - 2 then
          some (retryResponse
                  (countSearchAttempts (buildFinalStep tools opts
                    (messagesAfterTools execTool initialResp messages) depth).messages)
                  depth,
                initialResp.toolCalls)
        else
          some (fallbackResponse
                  (countSearchAttempts (buildFinalStep tools opts
                    (messagesAfterTools execTool initialResp messages) depth).messages)
                  (buildFinalStep tools opts
                    (messagesAfterTools execTool initialResp messages) depth).messages,
                initialResp.toolCalls)
      | .ok finalResp =>
        -- step 8
        if ¬ finalResp.toolCalls.isEmpty ∧ depth < maxDepth - 1 then
          match fuel with
          | 0 => none
          | fuel' + 1 =>
            (handleToolCallsWithDepthLimitStreaming provider execTool tools opts
                fuel' finalResp
                (buildFinalStep tools opts
                  (messagesAfterTools execTool initialResp messages) depth).messages
                (depth + 1)).map
              fun r => (r.1, initialResp.toolCalls ++ r.2)
        else
          some (finalResp, initialResp.toolCalls)

/-- The tail of `sendMessageInternal` (`agent/agent.go`): the initial
completion over the context messages, the error fallback that embeds the
rendered provider error, and the hand-off to the tool-calling loop when the
response carries tool calls. -/
def sendMessageInternalRespond
    (provider : CompletionRequest → Except PError CompletionResponse)
    (execTool : ToolCall → Except String String)
    (tools : List FunctionTool) (opts : ConversationOptions)
    (contextMessages : List Message) : CompletionResponse :=
  let req : CompletionRequest :=
    { messages := contextMessages, maxTokens := opts.maxTokens,
      temperature := opts.temperature, tools := tools, toolChoice := "auto" }
  match provider req with
  | .error e =>
    { content := "I'm experiencing technical difficulties. Error: " ++ e.render ++
                 "\n\nPlease try rephrasing your question or ask something simpler.",
      usage := {} }
  | .ok resp =>
    if ¬ resp.toolCalls.isEmpty then
      match handleToolCallsWithDepthLimitStreaming provider execTool tools opts
          maxDepth resp contextMessages 0 with
      | some r => r.1
      | none => resp   -- unreachable: the loop always answers within `maxDepth`
    else resp

/-! ## Specification-side definitions and demonstration stubs -/

/-- Spec wording for the search count: "the number of tool calls appearing in
assistant messages whose function name equals the designated search tool name
(`kbase`)" — to be compared with `countSearchAttempts`, which is translated
from the source. -/
def searchToolCallCount (messages : List Message) : Nat :=
  ((messages.filter fun m => m.role = "assistant").map
    fun m => (m.toolCalls.filter fun tc => tc.function.name = "kbase").length).sum

/-- A search tool call as a provider would request it. -/
def demoToolCall : ToolCall :=
  { id := "call_1", type := "function",
    function := { name := "kbase", arguments := "\x7b\"query\": \"customers\"\x7d" } }

/-- A provider response with empty content that requests one more search. -/
def demoToolResponse : CompletionResponse :=
  { content := "", toolCalls := [demoToolCall] }

/-- A provider stub that always requests a new tool call (and returns empty
content), the adversary of the termination property. -/
def demoProviderAlwaysTools : CompletionRequest → Except PError CompletionResponse :=
  fun _ => .ok demoToolResponse

/-- A tool-execution stub that always succeeds with a short result. -/
def demoExec : ToolCall → Except String String :=
  fun _ => .ok "ok"

/-- A short conversation with two completed `kbase` searches on record. -/
def demoMessages : List Message :=
  [{ role := "user", content := "how do I create a customer" },
   { role := "assistant", content := "searching", toolCalls := [demoToolCall] },
   { role := "tool", content := "nothing found", toolCallID := "call_1" },
   { role := "assistant", content := "searching again",
     toolCalls := [{ demoToolCall with id := "call_2" }] },
   { role := "tool", content := "nothing found", toolCallID := "call_2" }]

/-! ## Helper lemmas -/

theorem countSearchAttempts_append (xs ys : List Message) :
    countSearchAttempts (xs ++ ys) = countSearchAttempts xs + countSearchAttempts ys := by
  induction xs with
  | nil => simp [countSearchAttempts]
  | cons m rest ih =>
    simp only [List.cons_append, List.append_eq, countSearchAttempts]
    rw [ih]
    omega

theorem countSearchAttempts_eq_spec (messages : List Message) :
    countSearchAttempts messages = searchToolCallCount messages := by
  induction messages with
  | nil => rfl
  | cons m rest ih =>
    simp only [countSearchAttempts, searchToolCallCount, List.filter_cons]
    by_cases h : m.role = "assistant"
    · simp [h, searchToolCallCount] at ih ⊢
      omega
    · simp [h, searchToolCallCount] at ih ⊢
      omega

theorem countSearchAttempts_addMaxDepthInstruction (l : List Message) :
    countSearchAttempts (addMaxDepthInstruction l) = countSearchAttempts l := by
  induction l with
  | nil => rfl
  | cons a rest ih =>
    cases rest with
    | nil =>
      cases a with
      | mk role content toolCalls toolCallID =>
        simp only [addMaxDepthInstruction]
        split <;> simp [countSearchAttempts]
    | cons b rest2 =>
      simp only [addMaxDepthInstruction, countSearchAttempts]
      rw [ih]
      simp [countSearchAttempts]

theorem countSearchAttempts_addForceSearchMessage (n : Nat) (l : List Message) :
    countSearchAttempts (addForceSearchMessage n l) = countSearchAttempts l := by
  induction l with
  | nil => rfl
  | cons a rest ih =>
    cases rest with
    | nil =>
      simp only [addForceSearchMessage]
      split <;> simp [countSearchAttempts, forceSearchMessage]
    | cons b rest2 =>
      simp only [addForceSearchMessage, countSearchAttempts]
      rw [ih]
      simp [countSearchAttempts]

theorem isPrefix_addForceSearchMessage (n : Nat) (l : List Message) :
    l <+: addForceSearchMessage n l := by
  induction l with
  | nil => exact ⟨[], rfl⟩
  | cons a rest ih =>
    cases rest with
    | nil =>
      simp only [addForceSearchMessage]
      split
      · exact ⟨[forceSearchMessage n], rfl⟩
      · exact ⟨[], rfl⟩
    | cons b rest2 =>
      obtain ⟨t, ht⟩ := ih
      exact ⟨t, by simp only [addForceSearchMessage, List.cons_append, ht]⟩

/-- The message list the loop holds after steps 4–5, by branch. -/
theorem buildFinalStep_messages (tools : List FunctionTool)
    (opts : ConversationOptions) (messages : List Message) (depth : Nat) :
    (buildFinalStep tools opts messages depth).messages =
      if maxDepth - 1 ≤ depth then addMaxDepthInstruction messages
      else if countSearchAttempts messages < minSearches ∧ shouldForceSearch messages then
        addForceSearchMessage (countSearchAttempts messages) messages
      else messages := by
  simp only [buildFinalStep]
  by_cases h1 : maxDepth - 1 ≤ depth
  · simp [h1]
  · simp only [h1, if_neg, if_false]
    by_cases h2 : countSearchAttempts messages < minSearches
    · by_cases h3 : shouldForceSearch messages = true
      · simp [h2, h3]
      · simp [h2, h3]
    · simp [h2]

/-! ## Claims about the orchestration loop -/

/-- C1 (counterexample): the claim asserts that for every provider behavior —
including a stub that always requests a new tool call — the loop's final
response has non-empty content.  A stub that always requests a new tool call
while returning empty content drives the loop to the depth cutoff, where the
provider's last response is returned as-is: its content is empty. -/
theorem claim_C1_counterexample :
    ((handleToolCallsWithDepthLimitStreaming demoProviderAlwaysTools demoExec
        [] {} maxDepth demoToolResponse [] 0).map fun r => r.1.content) =
      some "" := by
  rfl

/-- C1 (amended): for every initial state and every provider behavior, the
orchestration loop returns within `maxDepth` recursive invocations (a
recursion budget of `maxDepth - 1 - depth` further invocations always
suffices); the final content, however, is the provider's own content when the
provider stops being asked to recurse, and may then be empty. -/
theorem claim_C1_termination
    (provider : CompletionRequest → Except PError CompletionResponse)
    (execTool : ToolCall → Except String String)
    (tools : List FunctionTool) (opts : ConversationOptions) :
    ∀ fuel depth resp messages, maxDepth - 1 - depth ≤ fuel →
      (handleToolCallsWithDepthLimitStreaming provider execTool tools opts
        fuel resp messages depth).isSome = true := by
  intro fuel
  induction fuel with
  | zero =>
    intro depth resp messages h
    rw [handleToolCallsWithDepthLimitStreaming]
    by_cases hd : maxDepth ≤ depth
    · rw [if_pos hd]; rfl
    · rw [if_neg hd]
      split
      · split <;> rfl
      · split
        · rename_i hguard
          exfalso
          simp only [maxDepth] at hd hguard h
          omega
        · rfl
  | succ f ih =>
    intro depth resp messages h
    rw [handleToolCallsWithDepthLimitStreaming]
    by_cases hd : maxDepth ≤ depth
    · rw [if_pos hd]; rfl
    · rw [if_neg hd]
      split
      · split <;> rfl
      · rename_i fr hfr
        split
        · rename_i hguard
          change (Option.map (fun r => (r.1, resp.toolCalls ++ r.2))
              (handleToolCallsWithDepthLimitStreaming provider execTool tools opts f fr
                (buildFinalStep tools opts (messagesAfterTools execTool resp messages) depth).messages
                (depth + 1))).isSome = true
          have hih := ih (depth + 1) fr
            (buildFinalStep tools opts (messagesAfterTools execTool resp messages) depth).messages
            (by simp only [maxDepth] at h ⊢; omega)
          cases hrec : handleToolCallsWithDepthLimitStreaming provider execTool tools opts f fr
              (buildFinalStep tools opts (messagesAfterTools execTool resp messages) depth).messages
              (depth + 1) with
          | none => rw [hrec] at hih; simp at hih
          | some val => rfl
        · rfl

/-- C1 (witness for the amended theorem): the always-searching stub at depth 0
with recursion budget `maxDepth` yields a result. -/
theorem claim_C1_witness :
    (handleToolCallsWithDepthLimitStreaming demoProviderAlwaysTools demoExec
      [] {} maxDepth demoToolResponse [] 0).isSome = true :=
  claim_C1_termination demoProviderAlwaysTools demoExec [] {} maxDepth 0
    demoToolResponse [] (by decide)

/-- C2: entered at `depth ≥ maxDepth` the loop returns at once — the result
does not depend on the provider, the tool executor, the tool list or the fuel,
and the ghost list of executed tool calls is empty — and the returned content
is the synthesized exhaustive-search message embedding the recomputed search
count when the current content is empty, ends (trimmed) with a colon, or is
under the 100-byte threshold, and the response unchanged otherwise. -/
theorem claim_C2_depth_exhaustion
    (provider : CompletionRequest → Except PError CompletionResponse)
    (execTool : ToolCall → Except String String)
    (tools : List FunctionTool) (opts : ConversationOptions)
    (fuel : Nat) (resp : CompletionResponse) (messages : List Message)
    (depth : Nat) (h : maxDepth ≤ depth) :
    handleToolCallsWithDepthLimitStreaming provider execTool tools opts
        fuel resp messages depth =
      some ((if resp.content = "" ∨ goHasSuffix (goTrimSpace resp.content) ":" = true ∨
                goLen (goTrimSpace resp.content) < 100 then
               { resp with content := exhaustiveSearchMessage (countSearchAttempts messages) }
             else resp), []) := by
  rw [handleToolCallsWithDepthLimitStreaming]
  rw [if_pos h]
  rfl

/-- C2 (witness): at depth `maxDepth` with an empty-content response and two
recorded searches, the exhaustive-search message with count 2 is returned and
nothing is executed. -/
theorem claim_C2_witness :
    handleToolCallsWithDepthLimitStreaming demoProviderAlwaysTools demoExec
        [] {} 0 { content := "" } demoMessages maxDepth =
      some ({ content := exhaustiveSearchMessage 2 }, []) := by
  rw [claim_C2_depth_exhaustion demoProviderAlwaysTools demoExec [] {} 0
    { content := "" } demoMessages maxDepth (by decide)]
  rfl

/-- C3: the recomputed `searchCount` equals the number of tool calls in
assistant messages named after the search tool (`kbase`), and — because one
loop invocation only appends messages (and at worst rewrites the trailing
assistant content at the depth cutoff) — the count over the list handed to
the recursive invocation never decreases; below the recursion cutoff the old
list is moreover a prefix of the new one. -/
theorem claim_C3_searchCount
    (execTool : ToolCall → Except String String) (resp : CompletionResponse)
    (tools : List FunctionTool) (opts : ConversationOptions)
    (messages : List Message) (depth : Nat) :
    countSearchAttempts messages = searchToolCallCount messages
    ∧ countSearchAttempts messages ≤ countSearchAttempts
        (buildFinalStep tools opts (messagesAfterTools execTool resp messages) depth).messages
    ∧ (depth < maxDepth - 1 → messages <+:
        (buildFinalStep tools opts (messagesAfterTools execTool resp messages) depth).messages) := by
  refine ⟨countSearchAttempts_eq_spec messages, ?_, ?_⟩
  · rw [buildFinalStep_messages]
    have hbase : countSearchAttempts messages ≤
        countSearchAttempts (messagesAfterTools execTool resp messages) := by
      simp only [messagesAfterTools, countSearchAttempts_append]
      omega
    split
    · rw [countSearchAttempts_addMaxDepthInstruction]; exact hbase
    · split
      · rw [countSearchAttempts_addForceSearchMessage]; exact hbase
      · exact hbase
  · intro hdepth
    rw [buildFinalStep_messages]
    rw [if_neg (by simp only [maxDepth] at hdepth ⊢; omega)]
    have hbase : messages <+: messagesAfterTools execTool resp messages :=
      ⟨[assistantMessage resp] ++ toolMessages execTool resp.toolCalls,
       by simp [messagesAfterTools]⟩
    split
    · exact hbase.trans (isPrefix_addForceSearchMessage _ _)
    · exact hbase

/-- C3 (witness): the property at a concrete two-search conversation, one more
incoming tool call, depth 0. -/
theorem claim_C3_witness :
    countSearchAttempts demoMessages = searchToolCallCount demoMessages
    ∧ countSearchAttempts demoMessages ≤ countSearchAttempts
        (buildFinalStep [] {} (messagesAfterTools demoExec demoToolResponse demoMessages) 0).messages
    ∧ demoMessages <+:
        (buildFinalStep [] {} (messagesAfterTools demoExec demoToolResponse demoMessages) 0).messages :=
  ⟨(claim_C3_searchCount demoExec demoToolResponse [] {} demoMessages 0).1,
   (claim_C3_searchCount demoExec demoToolResponse [] {} demoMessages 0).2.1,
   (claim_C3_searchCount demoExec demoToolResponse [] {} demoMessages 0).2.2 (by decide)⟩

/-! ## Claim C4: the second-to-last allowed depth -/

theorem addMaxDepthInstruction_concat (l : List Message) (m : Message) :
    addMaxDepthInstruction (l ++ [m]) =
      l ++ (if m.role = "assistant" then
              [{ m with content := m.content ++ maxDepthInstruction }]
            else [m]) := by
  induction l with
  | nil => simp only [List.nil_append, addMaxDepthInstruction]
  | cons a rest ih =>
    cases rest with
    | nil =>
      simp only [List.nil_append, List.cons_append, addMaxDepthInstruction]
    | cons b rest2 =>
      simp only [List.cons_append, List.append_eq, addMaxDepthInstruction] at ih ⊢
      rw [ih]

/-- A nonempty tool list's messages place a `tool` message last, so the
depth-cutoff instruction is not added. -/
theorem addMaxDepthInstruction_messagesAfterTools_ne
    (execTool : ToolCall → Except String String) (resp : CompletionResponse)
    (messages : List Message) (h : resp.toolCalls ≠ []) :
    addMaxDepthInstruction (messagesAfterTools execTool resp messages) =
      messagesAfterTools execTool resp messages := by
  rcases List.eq_nil_or_concat resp.toolCalls with hnil | ⟨ts, t, hts⟩
  · exact absurd hnil h
  · simp only [messagesAfterTools, toolMessages, hts, List.concat_eq_append,
      List.map_append, List.map_cons, List.map_nil]
    rw [show messages ++ [assistantMessage resp] ++
          ((ts.map fun toolCall =>
            ({ role := "tool", content := toolCallContent execTool toolCall,
               toolCallID := toolCall.id } : Message)) ++
           [{ role := "tool", content := toolCallContent execTool t,
              toolCallID := t.id }]) =
        (messages ++ [assistantMessage resp] ++
          (ts.map fun toolCall =>
            ({ role := "tool", content := toolCallContent execTool toolCall,
               toolCallID := toolCall.id } : Message))) ++
          [{ role := "tool", content := toolCallContent execTool t,
             toolCallID := t.id }] from by simp [List.append_assoc]]
    rw [addMaxDepthInstruction_concat]
    simp

/-- C4 (counterexample): the claim asserts that at the second-to-last allowed
depth the next request disables tools AND that an instruction demanding a
final answer is appended to the conversation.  On the code the instruction is
only glued onto a trailing assistant message, but after executing the incoming
tool calls the last message is a `tool` message, so at this concrete input the
request carries no such instruction (tools are indeed disabled). -/
theorem claim_C4_counterexample :
    (buildFinalStep [{ type := "function", name := "kbase" }] {}
        (messagesAfterTools demoExec demoToolResponse []) 19).request.tools = []
    ∧ (buildFinalStep [{ type := "function", name := "kbase" }] {}
        (messagesAfterTools demoExec demoToolResponse []) 19).request.toolChoice = ""
    ∧ ((buildFinalStep [{ type := "function", name := "kbase" }] {}
        (messagesAfterTools demoExec demoToolResponse []) 19).request.messages.all
          fun m => ! goContains m.content "maximum search depth") = true := by
  exact ⟨rfl, rfl, by decide⟩

/-- C4 (amended): at `maxDepth-1 ≤ depth < maxDepth` the next completion
request is built with no tools and empty tool choice; the final-answer
instruction, however, is appended (to the trailing assistant message) only
when the incoming response carries no tool calls — when tool calls were just
executed, the last message is a `tool` message and the conversation goes out
unmodified.  The next completion cannot recurse regardless of what the
provider returns: even with zero recursion budget the loop answers. -/
theorem claim_C4_amended
    (provider : CompletionRequest → Except PError CompletionResponse)
    (execTool : ToolCall → Except String String)
    (tools : List FunctionTool) (opts : ConversationOptions)
    (resp : CompletionResponse) (messages : List Message) (depth : Nat)
    (h1 : maxDepth - 1 ≤ depth) (h2 : depth < maxDepth) :
    (buildFinalStep tools opts (messagesAfterTools execTool resp messages) depth).request.tools = []
    ∧ (buildFinalStep tools opts (messagesAfterTools execTool resp messages) depth).request.toolChoice = ""
    ∧ (resp.toolCalls ≠ [] →
        (buildFinalStep tools opts (messagesAfterTools execTool resp messages) depth).request.messages
          = messagesAfterTools execTool resp messages)
    ∧ (resp.toolCalls = [] →
        (buildFinalStep tools opts (messagesAfterTools execTool resp messages) depth).request.messages
          = messages ++ [{ assistantMessage resp with
              content := (assistantMessage resp).content ++ maxDepthInstruction }])
    ∧ (handleToolCallsWithDepthLimitStreaming provider execTool tools opts
        0 resp messages depth).isSome = true := by
  refine ⟨by simp [buildFinalStep, h1], by simp [buildFinalStep, h1], ?_, ?_, ?_⟩
  · intro hne
    simp only [buildFinalStep, if_pos h1]
    exact addMaxDepthInstruction_messagesAfterTools_ne execTool resp messages hne
  · intro hnil
    simp only [buildFinalStep, if_pos h1, messagesAfterTools, toolMessages, hnil,
      List.map_nil, List.append_nil]
    rw [addMaxDepthInstruction_concat]
    simp [assistantMessage]
  · rw [handleToolCallsWithDepthLimitStreaming]
    rw [if_neg (by omega)]
    split
    · split <;> rfl
    · split
      · rename_i hguard
        exfalso
        simp only [maxDepth] at h1 hguard
        omega
      · rfl

/-- C4 (witness for the amended theorem): depth 19 with tool calls leaves the
conversation untouched; the same depth without tool calls appends the
instruction; the loop answers even with zero budget. -/
theorem claim_C4_witness :
    (buildFinalStep [] {} (messagesAfterTools demoExec demoToolResponse demoMessages) 19).request.tools = []
    ∧ (buildFinalStep [] {} (messagesAfterTools demoExec demoToolResponse demoMessages) 19).request.toolChoice = ""
    ∧ (buildFinalStep [] {} (messagesAfterTools demoExec demoToolResponse demoMessages) 19).request.messages
        = messagesAfterTools demoExec demoToolResponse demoMessages
    ∧ (handleToolCallsWithDepthLimitStreaming demoProviderAlwaysTools demoExec [] {}
        0 demoToolResponse demoMessages 19).isSome = true :=
  ⟨(claim_C4_amended demoProviderAlwaysTools demoExec [] {} demoToolResponse demoMessages 19
      (by decide) (by decide)).1,
   (claim_C4_amended demoProviderAlwaysTools demoExec [] {} demoToolResponse demoMessages 19
      (by decide) (by decide)).2.1,
   (claim_C4_amended demoProviderAlwaysTools demoExec [] {} demoToolResponse demoMessages 19
      (by decide) (by decide)).2.2.1 (by decide),
   (claim_C4_amended demoProviderAlwaysTools demoExec [] {} demoToolResponse demoMessages 19
      (by decide) (by decide)).2.2.2.2⟩

/-! ## Claim C5: synthesized retry on provider failure -/

/-- A provider stub that always fails with a network error. -/
def demoFailingProvider : CompletionRequest → Except PError CompletionResponse :=
  fun _ => .error (.mk "openai" errorTypeNetwork "timeout" none)

/-- C5 (counterexample): the claim asserts that the synthesized retry converts
the failure into forward progress — "a further executed search".  On the code
the synthesized response is returned to the caller through the chain of tail
calls: at this concrete input the ghost list of executed tool calls is exactly
the incoming call, and the synthesized retry call is not among them (it is
never executed by the loop). -/
theorem claim_C5_counterexample :
    handleToolCallsWithDepthLimitStreaming demoFailingProvider demoExec [] {}
        maxDepth demoToolResponse [] 0 =
      some (retryResponse 1 0, [demoToolCall])
    ∧ retryToolCall 0 ∉ [demoToolCall] := by
  exact ⟨rfl, by decide⟩

/-- C5 (amended): if the provider's `Complete` fails while the recomputed
`searchCount` is below `minSearches` and `depth < maxDepth-2`, the loop
returns — with nil error — a synthesized response carrying exactly one retry
tool call addressed to `kbase` with the generic alternative-search-terms
argument (see `retryToolCall`); the retry call is handed back to the caller
as part of the final response and is not itself executed by the loop (the
ghost executed-call list holds only the incoming calls). -/
theorem claim_C5_amended
    (provider : CompletionRequest → Except PError CompletionResponse)
    (execTool : ToolCall → Except String String)
    (tools : List FunctionTool) (opts : ConversationOptions)
    (fuel : Nat) (resp : CompletionResponse) (messages : List Message)
    (depth : Nat) (e : PError)
    (hp : provider (buildFinalStep tools opts
        (messagesAfterTools execTool resp messages) depth).request = .error e)
    (hc : countSearchAttempts (buildFinalStep tools opts
        (messagesAfterTools execTool resp messages) depth).messages < minSearches)
    (hd : depth < maxDepth - 2) :
    handleToolCallsWithDepthLimitStreaming provider execTool tools opts
        fuel resp messages depth =
      some (retryResponse
              (countSearchAttempts (buildFinalStep tools opts
                (messagesAfterTools execTool resp messages) depth).messages)
              depth,
            resp.toolCalls) := by
  rw [handleToolCallsWithDepthLimitStreaming]
  rw [if_neg (by simp only [maxDepth] at hd ⊢; omega)]
  split
  · rw [if_pos ⟨hc, hd⟩]
  · rename_i fr hfr
    rw [hp] at hfr
    cases hfr

/-- C5 (witness for the amended theorem): the failing provider at depth 0 with
one incoming search call. -/
theorem claim_C5_witness :
    handleToolCallsWithDepthLimitStreaming demoFailingProvider demoExec [] {}
        maxDepth demoToolResponse [] 0 =
      some (retryResponse
              (countSearchAttempts (buildFinalStep [] {}
                (messagesAfterTools demoExec demoToolResponse []) 0).messages)
              0,
            demoToolResponse.toolCalls) :=
  claim_C5_amended demoFailingProvider demoExec [] {} maxDepth demoToolResponse [] 0
    (.mk "openai" errorTypeNetwork "timeout" none) rfl (by decide) (by decide)

/-! ## Claims C6/C7: the fallback provider -/

/-- C6: in `FallbackProvider.Complete`, every unavailable provider is skipped
without ending the iteration, every available provider before the first
available succeeding one is tried and failed over, and the first success is
returned at once with the serving provider's name annotated onto the model —
the ghost trace shows exactly the `Complete` calls made: the available
prefix providers, then the succeeding one, and nobody after it. -/
theorem claim_C6_fallback_shortcircuit (fname : String) (req : CompletionRequest)
    (p : ProviderImpl) (r : CompletionResponse)
    (hav : p.available = true) (hok : p.complete req = .ok r) :
    ∀ (pre post : List ProviderImpl) (acc : Option PError),
      (∀ q ∈ pre, q.available = true → ∃ e, q.complete req = .error e) →
      completeAux fname req (pre ++ p :: post) acc =
        (.ok { r with model := r.model ++ " (" ++ p.name ++ ")" },
         ((pre.filter fun q => q.available).map fun q => q.name) ++ [p.name]) := by
  intro pre
  induction pre with
  | nil =>
    intro post acc _
    rw [List.nil_append, completeAux]
    rw [if_neg (by simp [hav])]
    split
    · rename_i resp heq
      rw [hok] at heq
      cases heq
      simp
    · rename_i e heq
      rw [hok] at heq
      cases heq
  | cons q rest ih =>
    intro post acc hpre
    rw [List.cons_append, completeAux]
    by_cases hq : q.available = true
    · obtain ⟨e, he⟩ := hpre q (by simp) hq
      rw [if_neg (by simp [hq])]
      split
      · rename_i resp heq
        rw [he] at heq
        cases heq
      · rename_i e' heq
        have hX := ih post (some e') (fun x hx hxa => hpre x (by simp [hx]) hxa)
        have hne : ((rest ++ p :: post).isEmpty) = false := by
          cases rest <;> simp
        split
        · rw [hX]
          simp [List.filter_cons, hq]
        · split
          · rw [hX]
            simp [List.filter_cons, hq]
          · rename_i hlast
            rw [hne] at hlast
            simp at hlast
    · rw [if_pos (by simp [hq])]
      rw [ih post _ (fun x hx hxa => hpre x (by simp [hx]) hxa)]
      simp [List.filter_cons, hq]

/-- C6 (witness): providers `[A (fails, rate_limit), B (succeeds)]` — the spec
test: `Complete` returns B's response annotated with `provider-b`, and the
attempted trace is exactly `[provider-a, provider-b]`. -/
theorem claim_C6_witness :
    completeAux "fallback[[provider-a provider-b]]" { messages := [] }
        ([{ name := "provider-a", available := true,
            complete := fun _ => .error (.mk "provider-a" errorTypeRateLimit "429" none) }] ++
          { name := "provider-b", available := true,
            complete := fun _ => .ok { content := "hello", model := "model-b" } } :: [])
        none =
      (.ok { content := "hello", model := "model-b (provider-b)" },
       ["provider-a", "provider-b"]) := by
  rw [claim_C6_fallback_shortcircuit "fallback[[provider-a provider-b]]" { messages := [] }
    { name := "provider-b", available := true,
      complete := fun _ => .ok { content := "hello", model := "model-b" } }
    { content := "hello", model := "model-b" } rfl rfl
    [{ name := "provider-a", available := true,
       complete := fun _ => .error (.mk "provider-a" errorTypeRateLimit "429" none) }]
    [] none
    (by
      intro q hq _
      rw [List.mem_singleton] at hq
      subst hq
      exact ⟨.mk "provider-a" errorTypeRateLimit "429" none, rfl⟩)]
  rfl

/-- The accumulator step behind C7: once a last error is on record and every
remaining provider is available but fails with a fallback-class error, the
loop walks the whole remainder and wraps the newest recorded error. -/
theorem completeAux_all_fail (fname : String) (req : CompletionRequest)
    (errF : ProviderImpl → PError) :
    ∀ (ps : List ProviderImpl) (e0 : PError),
      (∀ q ∈ ps, q.available = true ∧ q.complete req = .error (errF q) ∧
        ((errF q).errType = errorTypeAuth ∨ (errF q).errType = errorTypeQuotaExceed ∨
          (errF q).errType = errorTypeRateLimit)) →
      completeAux fname req ps (some e0) =
        (.error (.mk fname errorTypeServerError "all providers failed"
            (some ((ps.map errF).getLastD e0))),
         ps.map fun q => q.name) := by
  intro ps
  induction ps with
  | nil => intro e0 _; rfl
  | cons q rest ih =>
    intro e0 hall
    obtain ⟨hq, he, htype⟩ := hall q (by simp)
    rw [completeAux]
    rw [if_neg (by simp [hq])]
    split
    · rename_i resp heq
      rw [he] at heq
      cases heq
    · rename_i e' heq
      rw [he] at heq
      cases heq
      rw [if_pos htype]
      rw [ih (errF q) (fun x hx => hall x (by simp [hx]))]
      simp only [List.map_cons, List.getLastD_cons]

/-- The exhaustion lemma behind C7: when every provider is available and fails
with a fallback-class error, the loop walks the whole list and wraps the last
underlying error. -/
theorem completeAux_exhaustion (fname : String) (req : CompletionRequest)
    (errF : ProviderImpl → PError) :
    ∀ (ps : List ProviderImpl) (h : ps ≠ []) (acc : Option PError),
      (∀ q ∈ ps, q.available = true ∧ q.complete req = .error (errF q) ∧
        ((errF q).errType = errorTypeAuth ∨ (errF q).errType = errorTypeQuotaExceed ∨
          (errF q).errType = errorTypeRateLimit)) →
      completeAux fname req ps acc =
        (.error (.mk fname errorTypeServerError "all providers failed"
            (some (errF (ps.getLast h)))),
         ps.map fun q => q.name) := by
  intro ps
  cases ps with
  | nil => intro h; exact absurd rfl h
  | cons q rest =>
    intro h acc hall
    obtain ⟨hq, he, htype⟩ := hall q (by simp)
    rw [completeAux]
    rw [if_neg (by simp [hq])]
    split
    · rename_i resp heq
      rw [he] at heq
      cases heq
    · rename_i e' heq
      rw [he] at heq
      cases heq
      rw [if_pos htype]
      rw [completeAux_all_fail fname req errF rest (errF q)
        (fun x hx => hall x (by simp [hx]))]
      rw [List.getLast_eq_getLastD]
      simp only [List.getLastD_map, List.map_cons]

/-- C7: the error routing of `FallbackProvider.Complete` — an
auth/quota/rate-limit failure always moves to the next provider; any failure
moves on when the failing provider is not the last; any other-typed failure at
the last provider is returned as-is; and full exhaustion yields the wrapped
"all providers failed" error naming the fallback set and carrying the last
underlying error, with every provider attempted. -/
theorem claim_C7_error_routing :
    (∀ (fname : String) (req : CompletionRequest) (p : ProviderImpl)
        (rest : List ProviderImpl) (acc : Option PError) (e : PError),
      p.available = true → p.complete req = .error e →
      (e.errType = errorTypeAuth ∨ e.errType = errorTypeQuotaExceed ∨
        e.errType = errorTypeRateLimit) →
      completeAux fname req (p :: rest) acc =
        ((completeAux fname req rest (some e)).1,
         p.name :: (completeAux fname req rest (some e)).2))
    ∧ (∀ (fname : String) (req : CompletionRequest) (p : ProviderImpl)
        (rest : List ProviderImpl) (acc : Option PError) (e : PError),
      p.available = true → p.complete req = .error e → rest ≠ [] →
      completeAux fname req (p :: rest) acc =
        ((completeAux fname req rest (some e)).1,
         p.name :: (completeAux fname req rest (some e)).2))
    ∧ (∀ (fname : String) (req : CompletionRequest) (p : ProviderImpl)
        (acc : Option PError) (e : PError),
      p.available = true → p.complete req = .error e →
      ¬ (e.errType = errorTypeAuth ∨ e.errType = errorTypeQuotaExceed ∨
          e.errType = errorTypeRateLimit) →
      completeAux fname req [p] acc = (.error e, [p.name]))
    ∧ (∀ (ps : List ProviderImpl) (req : CompletionRequest)
        (errF : ProviderImpl → PError) (h : ps ≠ []),
      (∀ q ∈ ps, q.available = true ∧ q.complete req = .error (errF q) ∧
        ((errF q).errType = errorTypeAuth ∨ (errF q).errType = errorTypeQuotaExceed ∨
          (errF q).errType = errorTypeRateLimit)) →
      FallbackProviderComplete ps req =
        (.error (.mk (fallbackName ps) errorTypeServerError "all providers failed"
            (some (errF (ps.getLast h)))),
         ps.map fun q => q.name)) := by
  refine ⟨?_, ?_, ?_, ?_⟩
  · intro fname req p rest acc e hav he htype
    rw [completeAux]
    rw [if_neg (by simp [hav])]
    split
    · rename_i resp heq; rw [he] at heq; cases heq
    · rename_i e' heq
      rw [he] at heq
      cases heq
      rw [if_pos htype]
  · intro fname req p rest acc e hav he hrest
    rw [completeAux]
    rw [if_neg (by simp [hav])]
    split
    · rename_i resp heq; rw [he] at heq; cases heq
    · rename_i e' heq
      rw [he] at heq
      cases heq
      split
      · rfl
      · rw [if_pos (by simp [List.isEmpty_iff, hrest])]
  · intro fname req p acc e hav he htype
    rw [completeAux]
    rw [if_neg (by simp [hav])]
    split
    · rename_i resp heq; rw [he] at heq; cases heq
    · rename_i e' heq
      rw [he] at heq
      cases heq
      rw [if_neg htype]
      rw [if_neg (by simp)]
  · intro ps req errF h hall
    exact completeAux_exhaustion (fallbackName ps) req errF ps h none hall

/-- C7 (witness): providers `[A (fails, auth), B (fails, auth)]` — the spec
test: the result is the wrapped all-providers-failed error naming the set and
carrying B's error, with both providers attempted. -/
theorem claim_C7_witness :
    FallbackProviderComplete
        [{ name := "provider-a", available := true,
           complete := fun _ => .error (.mk "provider-a" errorTypeAuth "401" none) },
         { name := "provider-b", available := true,
           complete := fun _ => .error (.mk "provider-b" errorTypeAuth "401" none) }]
        { messages := [] } =
      (.error (.mk "fallback[[provider-a provider-b]]" errorTypeServerError
          "all providers failed" (some (.mk "provider-b" errorTypeAuth "401" none))),
       ["provider-a", "provider-b"]) := by
  rw [claim_C7_error_routing.2.2.2
    [{ name := "provider-a", available := true,
       complete := fun _ => .error (.mk "provider-a" errorTypeAuth "401" none) },
     { name := "provider-b", available := true,
       complete := fun _ => .error (.mk "provider-b" errorTypeAuth "401" none) }]
    { messages := [] }
    (fun q => .mk q.name errorTypeAuth "401" none)
    (by simp)
    (by
      intro q hq
      simp only [List.mem_cons, List.mem_singleton, List.not_mem_nil, or_false] at hq
      rcases hq with rfl | rfl
      · exact ⟨rfl, rfl, Or.inl rfl⟩
      · exact ⟨rfl, rfl, Or.inl rfl⟩)]
  rfl

/-! ## Claim C8: user-visible failure content -/

/-- A provider whose failure carries internal details in its error. -/
def demoLeakyProvider : CompletionRequest → Except PError CompletionResponse :=
  fun _ => .error (.mk "openai" errorTypeAuth "secret_token_123 invalid" none)

/-- C8 (counterexample): the claim asserts the content returned by
`SendMessage` never exposes internal error types or raw error text.  When the
initial completion fails, `sendMessageInternal` builds its fallback content
with the rendered error — at this concrete input the returned content contains
both the raw error text and the internal error type tag. -/
theorem claim_C8_counterexample :
    goContains (sendMessageInternalRespond demoLeakyProvider demoExec [] {} []).content
        "secret_token_123" = true
    ∧ goContains (sendMessageInternalRespond demoLeakyProvider demoExec [] {} []).content
        errorTypeAuth = true := by
  exact ⟨by decide, by decide⟩

/-- Two providers that agree on successes and may differ arbitrarily on the
payloads of their failures. -/
def ProviderAgreeUpToErrors
    (P Q : CompletionRequest → Except PError CompletionResponse) : Prop :=
  ∀ req, match P req, Q req with
    | .ok r, .ok r' => r = r'
    | .error _, .error _ => True
    | _, _ => False

/-- C8 (amended): within the tool-calling loop the claim holds — the loop's
output never depends on a provider error's type or text (two providers that
fail at the same places produce identical loop results, whatever their error
payloads; the loop's own failure messages embed only the attempt count).  The
top-level `SendMessage` fallback for a failed initial completion, however,
embeds the rendered provider error in the user-visible content, so the claim
as stated fails there. -/
theorem claim_C8_amended
    (P Q : CompletionRequest → Except PError CompletionResponse)
    (execTool : ToolCall → Except String String)
    (tools : List FunctionTool) (opts : ConversationOptions)
    (h : ProviderAgreeUpToErrors P Q) :
    ∀ fuel resp messages depth,
      handleToolCallsWithDepthLimitStreaming P execTool tools opts
          fuel resp messages depth =
        handleToolCallsWithDepthLimitStreaming Q execTool tools opts
          fuel resp messages depth := by
  intro fuel
  induction fuel with
  | zero =>
    intro resp messages depth
    conv_lhs => rw [handleToolCallsWithDepthLimitStreaming]
    conv_rhs => rw [handleToolCallsWithDepthLimitStreaming]
    by_cases hd : maxDepth ≤ depth
    · rw [if_pos hd, if_pos hd]
    · rw [if_neg hd, if_neg hd]
      have hreq := h (buildFinalStep tools opts
        (messagesAfterTools execTool resp messages) depth).request
      cases hP : P (buildFinalStep tools opts
          (messagesAfterTools execTool resp messages) depth).request with
      | error e =>
        cases hQ : Q (buildFinalStep tools opts
            (messagesAfterTools execTool resp messages) depth).request with
        | error e' => rfl
        | ok r' =>
          rw [hP, hQ] at hreq
          exact (hreq : False).elim
      | ok r =>
        cases hQ : Q (buildFinalStep tools opts
            (messagesAfterTools execTool resp messages) depth).request with
        | error e' =>
          rw [hP, hQ] at hreq
          exact (hreq : False).elim
        | ok r' =>
          rw [hP, hQ] at hreq
          have hrr : r = r' := hreq
          subst hrr
          rfl
  | succ f ih =>
    intro resp messages depth
    conv_lhs => rw [handleToolCallsWithDepthLimitStreaming]
    conv_rhs => rw [handleToolCallsWithDepthLimitStreaming]
    by_cases hd : maxDepth ≤ depth
    · rw [if_pos hd, if_pos hd]
    · rw [if_neg hd, if_neg hd]
      have hreq := h (buildFinalStep tools opts
        (messagesAfterTools execTool resp messages) depth).request
      cases hP : P (buildFinalStep tools opts
          (messagesAfterTools execTool resp messages) depth).request with
      | error e =>
        cases hQ : Q (buildFinalStep tools opts
            (messagesAfterTools execTool resp messages) depth).request with
        | error e' => rfl
        | ok r' =>
          rw [hP, hQ] at hreq
          exact (hreq : False).elim
      | ok r =>
        cases hQ : Q (buildFinalStep tools opts
            (messagesAfterTools execTool resp messages) depth).request with
        | error e' =>
          rw [hP, hQ] at hreq
          exact (hreq : False).elim
        | ok r' =>
          rw [hP, hQ] at hreq
          have hrr : r = r' := hreq
          subst hrr
          change
            (if ¬ r.toolCalls.isEmpty = true ∧ depth < maxDepth - 1 then
               Option.map (fun pr => (pr.1, resp.toolCalls ++ pr.2))
                 (handleToolCallsWithDepthLimitStreaming P execTool tools opts f r
                   (buildFinalStep tools opts (messagesAfterTools execTool resp messages) depth).messages
                   (depth + 1))
             else some (r, resp.toolCalls)) =
            (if ¬ r.toolCalls.isEmpty = true ∧ depth < maxDepth - 1 then
               Option.map (fun pr => (pr.1, resp.toolCalls ++ pr.2))
                 (handleToolCallsWithDepthLimitStreaming Q execTool tools opts f r
                   (buildFinalStep tools opts (messagesAfterTools execTool resp messages) depth).messages
                   (depth + 1))
             else some (r, resp.toolCalls))
          rw [ih r (buildFinalStep tools opts
            (messagesAfterTools execTool resp messages) depth).messages (depth + 1)]

/-- C8 (witness for the amended theorem): two always-failing providers with
different error payloads drive the loop to identical results. -/
theorem claim_C8_witness :
    handleToolCallsWithDepthLimitStreaming demoLeakyProvider demoExec [] {}
        maxDepth demoToolResponse [] 0 =
      handleToolCallsWithDepthLimitStreaming demoFailingProvider demoExec [] {}
        maxDepth demoToolResponse [] 0 :=
  claim_C8_amended demoLeakyProvider demoFailingProvider demoExec [] {}
    (fun _ => trivial) maxDepth demoToolResponse [] 0

/-! ## Claims C9/C10: the tool confirmation gate -/

/-- C9: a registered, available tool with `RequiresConfirmation() = true`
invoked through the registry with `Confirmed = false` yields — with nil
error — a failed `ToolResult` carrying the `requires_confirmation` metadata
flag, and the underlying `Execute` is never invoked (the ghost flag is
`false`, and the result does not depend on the tool's `execute` function). -/
theorem claim_C9_confirmation_gate (registry : List ToolImpl)
    (execution : ToolExecution) (execId : String) (now dur : Nat)
    (tool : ToolImpl)
    (hfind : registry.find? (fun t => t.name = execution.toolName) = some tool)
    (hav : tool.available = true)
    (hrc : tool.requiresConfirmation = true)
    (hnc : execution.confirmed = false) :
    executeToolRegistry registry execution execId now dur =
      .ok ({ success := false, error := "confirmation required",
             message := "Tool '" ++ execution.toolName ++ "' requires user confirmation before execution",
             executionID := execId, timestamp := now,
             metadata := [("requires_confirmation", .bool true),
                          ("estimated_cost", .int tool.estimatedCost)] }, false) := by
  simp only [executeToolRegistry, hfind]
  rw [if_neg (by simp [hav])]
  rw [if_pos (by simp [hrc, hnc])]

/-- C9 (witness): a concrete confirmation-requiring tool, unconfirmed. -/
theorem claim_C9_witness :
    executeToolRegistry
        [{ name := "file_write", available := true, requiresConfirmation := true,
           estimatedCost := 50,
           execute := fun _ => .ok { success := true, message := "written" } }]
        { toolName := "file_write", parameters := [], confirmed := false }
        "exec_1" 7 0 =
      .ok ({ success := false, error := "confirmation required",
             message := "Tool 'file_write' requires user confirmation before execution",
             executionID := "exec_1", timestamp := 7,
             metadata := [("requires_confirmation", .bool true),
                          ("estimated_cost", .int 50)] }, false) :=
  claim_C9_confirmation_gate
    [{ name := "file_write", available := true, requiresConfirmation := true,
       estimatedCost := 50,
       execute := fun _ => .ok { success := true, message := "written" } }]
    { toolName := "file_write", parameters := [], confirmed := false }
    "exec_1" 7 0
    { name := "file_write", available := true, requiresConfirmation := true,
      estimatedCost := 50,
      execute := fun _ => .ok { success := true, message := "written" } }
    rfl rfl rfl rfl

/-- C10: `executeToolCall` builds every LLM-requested execution with
`Confirmed := true`, so for a registered, available tool whose parameters
parse and validate, the underlying `Execute` always runs (ghost flag `true`)
— in particular for a tool with `RequiresConfirmation() = true`, which
therefore runs without any user confirmation; the gate can only fire on a
direct registry `ExecuteTool` call with `Confirmed = false`. -/
theorem claim_C10_llm_auto_confirm (registry : List ToolImpl)
    (parseArgs : String → Option ToolParams) (execId : String) (now dur : Nat)
    (toolCall : ToolCall) (args : ToolParams) (tool : ToolImpl)
    (hparse : parseArgs toolCall.function.arguments = some args)
    (hfind : registry.find? (fun t => t.name = toolCall.function.name) = some tool)
    (hav : tool.available = true)
    (hval : ∀ v, tool.validate = some v → v args = none) :
    (executeToolCall registry parseArgs execId now dur toolCall).2 = true := by
  have hreg : ∃ res, executeToolRegistry registry
      { toolName := toolCall.function.name, parameters := args,
        confirmed := true, timestamp := now } execId now dur = .ok (res, true) := by
    simp only [executeToolRegistry, hfind]
    rw [if_neg (by simp [hav])]
    rw [if_neg (by simp)]
    cases hv : tool.validate with
    | none =>
      cases he : tool.execute args with
      | error err => exact ⟨_, rfl⟩
      | ok result => exact ⟨_, rfl⟩
    | some v =>
      simp only []
      rw [hval v hv]
      cases he : tool.execute args with
      | error err => exact ⟨_, rfl⟩
      | ok result => exact ⟨_, rfl⟩
  obtain ⟨res, hres⟩ := hreg
  simp only [executeToolCall, hparse]
  rw [hres]
  change ((if ¬ res.success = true then
      ((.error ("tool execution failed: " ++ res.error) : Except String String), true)
    else if toolCall.function.name = "file_read" ∧ res.dataContent.isSome = true then
      (match res.dataContent with
       | some contentStr => ((.ok contentStr : Except String String), true)
       | none => ((.ok res.message : Except String String), true))
    else ((.ok res.message : Except String String), true)).2) = true
  by_cases hs : res.success = true
  · rw [if_neg (by simp [hs])]
    by_cases hfr : toolCall.function.name = "file_read" ∧ res.dataContent.isSome = true
    · rw [if_pos hfr]
      cases res.dataContent <;> rfl
    · rw [if_neg hfr]
  · rw [if_pos (by simp [hs])]

/-- C10 (witness): a confirmation-requiring tool invoked through the
LLM tool-call path runs its `Execute` with no user confirmation. -/
theorem claim_C10_witness :
    (executeToolCall
        [{ name := "file_write", available := true, requiresConfirmation := true,
           estimatedCost := 50,
           execute := fun _ => .ok { success := true, message := "written" } }]
        (fun _ => some []) "exec_2" 0 0
        { id := "call_w", type := "function",
          function := { name := "file_write", arguments := "\x7b\x7d" } }).2 = true :=
  claim_C10_llm_auto_confirm
    [{ name := "file_write", available := true, requiresConfirmation := true,
       estimatedCost := 50,
       execute := fun _ => .ok { success := true, message := "written" } }]
    (fun _ => some []) "exec_2" 0 0
    { id := "call_w", type := "function",
      function := { name := "file_write", arguments := "\x7b\x7d" } }
    []
    { name := "file_write", available := true, requiresConfirmation := true,
      estimatedCost := 50,
      execute := fun _ => .ok { success := true, message := "written" } }
    rfl rfl rfl (fun _ hv => Option.noConfusion hv)

end Agent
